import Mathlib

/-! Shallow embedding of the MarriedMore anniversary calculator
(src/app/page.tsx).  JavaScript `Date` time values are modelled as
`Option Int`: `some t` is a finite millisecond count since the Unix
epoch, `none` is the invalid (NaN-valued) date.  Calendar field access
and `Date.UTC` follow the ECMAScript specification on the proleptic
Gregorian calendar.  A time zone is modelled as its UTC-offset function
`Int → Int` (milliseconds east of UTC at each instant), the role played
at runtime by the platform zone database behind `Intl.DateTimeFormat`. -/

def msPerSecond : Int := 1000

def msPerMinute : Int := 60000

def msPerHour : Int := 3600000

def msPerDay : Int := 86400000

/-- Day number (days since 1970-01-01) of a proleptic-Gregorian civil
date `(y, m, d)` with month `1..12`.  A day outside the month's range
spills over linearly, exactly as ECMAScript's MakeDay does. -/
def daysFromCivil (y m d : Int) : Int :=
  let yAdj := if m ≤ 2 then y - 1 else y
  let era := Int.fdiv yAdj 400
  let yoe := yAdj - era * 400
  let mp := Int.emod (m + 9) 12
  let doy := Int.fdiv (153 * mp + 2) 5 + d - 1
  let doe := yoe * 365 + Int.fdiv yoe 4 - Int.fdiv yoe 100 + doy
  era * 146097 + doe - 719468

/-- Civil date `(year, month 1..12, day 1..31)` of a day number,
matching ECMAScript's YearFromTime / MonthFromTime / DateFromTime. -/
def civilFromDays (z0 : Int) : Int × Int × Int :=
  let z := z0 + 719468
  let era := Int.fdiv z 146097
  let doe := z - era * 146097
  let yoe := Int.fdiv (doe - Int.fdiv doe 1460 + Int.fdiv doe 36524 - Int.fdiv doe 146096) 365
  let y := yoe + era * 400
  let doy := doe - (365 * yoe + Int.fdiv yoe 4 - Int.fdiv yoe 100)
  let mp := Int.fdiv (5 * doy + 2) 153
  let d := doy - Int.fdiv (153 * mp + 2) 5 + 1
  let m := if mp < 10 then mp + 3 else mp - 9
  (if m ≤ 2 then y + 1 else y, m, d)

/-- ECMAScript Day(t). -/
def dayNumber (t : Int) : Int := Int.fdiv t msPerDay

/-- ECMAScript TimeWithinDay(t). -/
def timeWithinDay (t : Int) : Int := Int.emod t msPerDay

/-- JavaScript `Date.prototype.getUTCFullYear` on a finite time value. -/
def getUTCFullYear (t : Int) : Int := (civilFromDays (dayNumber t)).1

/-- JavaScript `Date.prototype.getUTCMonth` (0-based month). -/
def getUTCMonth (t : Int) : Int := (civilFromDays (dayNumber t)).2.1 - 1

/-- JavaScript `Date.prototype.getUTCDate` (day of month). -/
def getUTCDate (t : Int) : Int := (civilFromDays (dayNumber t)).2.2

/-- ECMAScript HourFromTime(t). -/
def hourFromTime (t : Int) : Int := Int.emod (Int.fdiv t msPerHour) 24

/-- ECMAScript MinFromTime(t). -/
def minFromTime (t : Int) : Int := Int.emod (Int.fdiv t msPerMinute) 60

/-- ECMAScript SecFromTime(t). -/
def secFromTime (t : Int) : Int := Int.emod (Int.fdiv t msPerSecond) 60

/-- ECMAScript MakeDay(y, m, d): month is 0-based and normalizes into
the year; the day of month overflows linearly. -/
def makeDay (y m d : Int) : Int :=
  daysFromCivil (y + Int.fdiv m 12) (Int.emod m 12 + 1) d

/-- ECMAScript MakeFullYear: the two-digit-year rule applied by
`Date.UTC` (years 0..99 mean 1900..1999). -/
def makeFullYear (y : Int) : Int := if 0 ≤ y ∧ y ≤ 99 then 1900 + y else y

/-- JavaScript `Date.UTC(y, m, d, hh, mi, ss)` (month 0-based) as a
finite time value; range clipping to ±8.64e15 is not modelled because
every input considered here is far inside that range. -/
def dateUTC (y m d hh mi ss : Int) : Int :=
  makeDay (makeFullYear y) m d * msPerDay +
    (hh * msPerHour + mi * msPerMinute + ss * msPerSecond)

/-- JavaScript `Date.prototype.setUTCMonth` on a finite time value:
keeps the year, day of month and time of day, replaces the (0-based)
month, normalizing overflow.  No two-digit-year rule applies here. -/
def setUTCMonth (t m : Int) : Int :=
  makeDay (getUTCFullYear t) m (getUTCDate t) * msPerDay + timeWithinDay t

/-- Wall-clock fields displayed for an instant, as produced by the
`Intl.DateTimeFormat` field set used in `getTimeZoneOffsetMillis`
(year, month, day, hour, minute, second with hourCycle h23). -/
structure WallClock where
  year : Int
  month : Int
  day : Int
  hour : Int
  minute : Int
  second : Int
deriving DecidableEq, Repr

/-- Civil wall-clock fields of a (wall-clock) millisecond value. -/
def fieldsOfMs (t : Int) : WallClock :=
  ⟨(civilFromDays (dayNumber t)).1, (civilFromDays (dayNumber t)).2.1,
    (civilFromDays (dayNumber t)).2.2, hourFromTime t, minFromTime t, secFromTime t⟩

/-- Embeds `getTimeZoneOffsetMillis` of src/app/page.tsx.  The
`Intl.DateTimeFormat` rendering of instant `t` in a zone is modelled as
the civil fields of `t + off t`, where `off` is the zone's UTC-offset
function; the source then rebuilds a UTC time value from those fields
with `Date.UTC` and returns the difference. -/
def getTimeZoneOffsetMillis (off : Int → Int) (t : Int) : Int :=
  let f := fieldsOfMs (t + off t)
  let zoned := dateUTC f.year (f.month - 1) f.day f.hour f.minute f.second
  zoned - t

/-- Accumulator loop of `digitsToNat`: consumes decimal digits,
failing (the NaN outcome of JavaScript Number) on any other
character. -/
def digitsToNatAux : List Char → Nat → Option Nat
  | [], acc => some acc
  | ch :: rest, acc =>
      if ch.isDigit then digitsToNatAux rest (acc * 10 + (ch.toNat - 48))
      else none

/-- JavaScript `Number(s)` on the digit strings produced by the date
and time pickers: the numeric value of a digit-only string, 0 for the
empty string, invalid (NaN) when a non-digit occurs. -/
def digitsToNat (l : List Char) : Option Nat :=
  digitsToNatAux l 0

/-- Accumulator loop of `splitOnChar`, modelling
`String.prototype.split` with a one-character separator. -/
def splitOnCharAux (c : Char) : List Char → List Char → List (List Char)
  | [], acc => [acc.reverse]
  | x :: xs, acc =>
      if x = c then acc.reverse :: splitOnCharAux c xs []
      else splitOnCharAux c xs (x :: acc)

/-- JavaScript `value.split(sep)` for the one-character separators
"T", "-" and ":" used by the source. -/
def splitOnChar (c : Char) (s : String) : List String :=
  (splitOnCharAux c s.data []).map String.mk

/-- Fixed-width all-digit component of an ISO 8601 date string. -/
def isoComponent (l : List Char) (len : Nat) : Option Nat :=
  if l.length = len ∧ l.all Char.isDigit then digitsToNat l else none

/-- Embeds `parseDateOnly` of src/app/page.tsx: the empty string is the
invalid date; otherwise `new Date("YYYY-MM-DDT00:00:00Z")`, i.e. the
ECMAScript Date Time String Format parse at midnight UTC (no
two-digit-year rule; components must be all-digit with widths 4-2-2 and
the month and day fields must lie in the lexical ranges 01..12 and
01..31, else the string is not a format instance and the date is
invalid).  The expanded-year form ±YYYYYY, which no date picker emits,
is not modelled. -/
def parseDateOnly (value : String) : Option Int :=
  if value = "" then none
  else
    match (splitOnChar '-' value).map String.data with
    | [ys, ms, ds] =>
        match isoComponent ys 4, isoComponent ms 2, isoComponent ds 2 with
        | some y, some m, some d =>
            if 1 ≤ m ∧ m ≤ 12 ∧ 1 ≤ d ∧ d ≤ 31 then
              some (daysFromCivil (y : Int) (m : Int) (d : Int) * msPerDay)
            else none
        | _, _, _ => none
    | _ => none

/-- Field extraction step of `parseDateTimeInZone` (src/app/page.tsx):
split on "T" with the time part defaulting to "00:00", split the date
part on "-" and the time part on ":", convert each component with
`Number`, with hour, minute and second defaulting to 0 when absent.  A
component that is present but not numeric makes the whole value
invalid. -/
def parseDateTimeFields (value : String) : Option WallClock :=
  if value = "" then none
  else
    let parts := splitOnChar 'T' value
    let datePart := parts.headD ""
    let timePart := parts.getD 1 "00:00"
    let dateNums := (splitOnChar '-' datePart).map (fun c => digitsToNat c.data)
    let timeNums := (splitOnChar ':' timePart).map (fun c => digitsToNat c.data)
    if dateNums.all Option.isSome ∧ timeNums.all Option.isSome then
      match dateNums with
      | [some y, some m, some d] =>
          some ⟨(y : Int), (m : Int), (d : Int),
            ((timeNums.getD 0 (some 0)).getD 0 : Int),
            ((timeNums.getD 1 (some 0)).getD 0 : Int),
            ((timeNums.getD 2 (some 0)).getD 0 : Int)⟩
      | _ => none
    else none

/-- Naive time value of parsed wall-clock fields: the
`Date.UTC(year, month - 1, day, hour, minute, second)` call of
`parseDateTimeInZone`. -/
def naiveMs (f : WallClock) : Int :=
  dateUTC f.year (f.month - 1) f.day f.hour f.minute f.second

/-- Embeds `parseDateTimeInZone` of src/app/page.tsx over a zone-offset
function: treat the naive fields as UTC, resolve the zone offset by
render-and-diff at that base instant, and subtract it. -/
def parseDateTimeInZone (off : Int → Int) (value : String) : Option Int :=
  match parseDateTimeFields value with
  | none => none
  | some f =>
      let base := naiveMs f
      let offset := getTimeZoneOffsetMillis off base
      some (base - offset)

/-- Wall-clock fields shown when an instant is rendered through a zone
(the `Intl.DateTimeFormat` display used both inside
`getTimeZoneOffsetMillis` and by `formatMarriedMoreDate`). -/
def renderFieldsInZone (off : Int → Int) (t : Int) : WallClock :=
  fieldsOfMs (t + off t)

/-- Modelled from the spec: the IANA zone rules for America/New_York
around the 2021 spring-forward transition named by the spec's zone
round-trip property.  The zone database lives behind the platform's
`Intl.DateTimeFormat`, not in src/: EST (−05:00) before
2021-03-14T07:00:00Z, EDT (−04:00) from that instant on.  Offsets are
in milliseconds east of UTC. -/
def nyOffset2021 (t : Int) : Int :=
  if t < 1615705200000 then -18000000 else -14400000

/-- Embeds `monthDifference` of src/app/page.tsx: whole-month count
from `start` to `end_`, decremented when the anchor (start advanced by
the raw month difference via `setUTCMonth`) has not yet been reached,
clamped at zero; 0 whenever either date is invalid. -/
def monthDifference (start end_ : Option Int) : Int :=
  match start, end_ with
  | some s, some e =>
      let months := (getUTCFullYear e - getUTCFullYear s) * 12 +
        (getUTCMonth e - getUTCMonth s)
      let anchor := setUTCMonth s (getUTCMonth s + months)
      let months' := if e < anchor then months - 1 else months
      max months' 0
  | _, _ => 0

/-- Raw year*12+month field difference used by `monthDifference` before
the anchor correction. -/
def rawMonthDiff (s e : Int) : Int :=
  (getUTCFullYear e - getUTCFullYear s) * 12 + (getUTCMonth e - getUTCMonth s)

/-- Embeds `ageLabel` of src/app/page.tsx: the years part is pushed when
`years` is truthy, the months part when `months` is truthy or both are
zero, and the parts are joined with ", ". -/
def ageLabel (years months : Int) : String :=
  let parts : List String :=
    (if years ≠ 0 then
      [toString years ++ " year" ++ (if years = 1 then "" else "s")]
     else []) ++
    (if months ≠ 0 ∨ (years = 0 ∧ months = 0) then
      [toString months ++ " month" ++ (if months = 1 then "" else "s")]
     else [])
  String.intercalate ", " parts

/-- Result type of the calculator, from src/app/page.tsx. -/
inductive CalculationResult where
  | idle (message : String)
  | error (message : String)
  | ready (marriedMore : Int) (age : Int × Int) (weddingFuture : Bool)
deriving DecidableEq, Repr

/-- Status test: the calculator result is the idle variant. -/
def CalculationResult.isIdle : CalculationResult → Bool
  | .idle _ => true
  | _ => false

/-- MarriedMore instant of a ready result, if any. -/
def resultMarriedMore : CalculationResult → Option Int
  | .ready mm _ _ => some mm
  | _ => none

/-- Age breakdown of a ready result, if any. -/
def resultAge : CalculationResult → Option (Int × Int)
  | .ready _ a _ => some a
  | _ => none

/-- Forgets the weddingFuture flag of a ready result. -/
def eraseFuture : CalculationResult → CalculationResult
  | .ready mm a _ => .ready mm a false
  | r => r

/-- Embeds `explainMarriedMoreDate` of src/app/page.tsx.  The source
reads the global clock internally (`Date.now()` at the weddingFuture
computation); that ambient read is modelled by the explicit clock-state
argument `now`. -/
def explainMarriedMoreDate (birth wedding : Option Int) (now : Int) : CalculationResult :=
  match birth, wedding with
  | some b, some w =>
      if w ≤ b then
        .error "Your wedding must happen after your birthdate. Please adjust the earlier entry."
      else
        let durationBeforeMarriage := w - b
        let marriedMore := w + durationBeforeMarriage
        let totalMonths := monthDifference (some b) (some marriedMore)
        let years := Int.fdiv totalMonths 12
        let months := Int.tmod totalMonths 12
        .ready marriedMore (years, months) (decide (now < w))
  | _, _ => .error "Double-check that each calendar entry is complete."

/-- Input mode of the page, from src/app/page.tsx. -/
inductive Mode where
  | basic
  | advanced
deriving DecidableEq, Repr

/-- Embeds the `result` useMemo of src/app/page.tsx: the empty-field
guard per mode, then parsing, then the calculator.  Zone names are
already resolved to their offset functions. -/
def computeResult (mode : Mode) (birthDate weddingDate advancedBirth advancedWedding : String)
    (birthOff weddingOff : Int → Int) (now : Int) : CalculationResult :=
  match mode with
  | .basic =>
      if birthDate = "" ∨ weddingDate = "" then
        .idle "Enter both dates to reveal your MarriedMore moment."
      else
        explainMarriedMoreDate (parseDateOnly birthDate) (parseDateOnly weddingDate) now
  | .advanced =>
      if advancedBirth = "" ∨ advancedWedding = "" then
        .idle "Add the date, time, and timezone for both birth and wedding."
      else
        explainMarriedMoreDate (parseDateTimeInZone birthOff advancedBirth)
          (parseDateTimeInZone weddingOff advancedWedding) now

/-- UI state relevant to the copy-label lifecycle of src/app/page.tsx:
the button label, the live (scheduled and not yet cancelled or fired)
reversion timeouts as (id, delay-in-ms) pairs, the `copyTimeout` ref
holding the most recently scheduled timeout id, and the next fresh
timeout id. -/
structure CopyModel where
  copyLabel : String
  liveTimers : List (Nat × Nat)
  copyTimeoutRef : Option Nat
  nextId : Nat
deriving DecidableEq, Repr

/-- Initial copy-label state of the component. -/
def initCopyModel : CopyModel := ⟨"Copy result", [], none, 0⟩

/-- Effect of `if (copyTimeout.current) clearTimeout(copyTimeout.current)`:
drops the referenced timeout, if any, from the live set. -/
def clearCurrentTimeout (s : CopyModel) : List (Nat × Nat) :=
  match s.copyTimeoutRef with
  | some i => s.liveTimers.filter (fun p => p.1 != i)
  | none => s.liveTimers

/-- Events driving the copy-label lifecycle: a copy click (carrying the
ready-result guard and whether the clipboard write succeeded), the
firing of a scheduled timeout, and component teardown. -/
inductive CopyEvent where
  | copyClick (ready ok : Bool)
  | fire (id : Nat)
  | teardown

/-- One step of the copy-label lifecycle, embedding `handleCopy`, the
scheduled reversion callback, and the unmount cleanup effect of
src/app/page.tsx.  `handleCopy` returns early when no ready result is
shown; otherwise it sets the label from the clipboard outcome, cancels
any pending reversion timeout, and schedules a fresh one with a 2000 ms
delay.  A timeout fires only while it is live; firing reverts the label
to "Copy result".  Teardown cancels the referenced timeout
unconditionally. -/
def copyStep (s : CopyModel) : CopyEvent → CopyModel
  | .copyClick ready ok =>
      if ready then
        { copyLabel := if ok then "Copied!" else "Copy failed"
          liveTimers := clearCurrentTimeout s ++ [(s.nextId, 2000)]
          copyTimeoutRef := some s.nextId
          nextId := s.nextId + 1 }
      else s
  | .fire i =>
      if s.liveTimers.filter (fun p => p.1 == i) ≠ [] then
        { s with copyLabel := "Copy result",
                 liveTimers := s.liveTimers.filter (fun p => p.1 != i) }
      else s
  | .teardown => { s with liveTimers := clearCurrentTimeout s }

/-- Runs the copy-label lifecycle from the initial state. -/
def runCopy (events : List CopyEvent) : CopyModel :=
  events.foldl copyStep initCopyModel

/-- Structural invariant of the copy-label lifecycle: at most one
reversion timeout is live, it is the one held by the ref with a 2000 ms
delay, and the ref only holds already-allocated ids. -/
def CopyInv (s : CopyModel) : Prop :=
  (s.liveTimers = [] ∨
    ∃ i, s.copyTimeoutRef = some i ∧ s.liveTimers = [(i, 2000)]) ∧
  (∀ i, s.copyTimeoutRef = some i → i < s.nextId)

/-- Helper: the calculator itself never produces the idle variant. -/
theorem explain_not_idle (b w : Option Int) (now : Int) :
    (explainMarriedMoreDate b w now).isIdle = false := by
  rcases b with _ | b <;> rcases w with _ | w <;>
    simp only [explainMarriedMoreDate, CalculationResult.isIdle]
  by_cases h : w ≤ b <;> simp [h, CalculationResult.isIdle]

/-- Helper: the clamped month count is never negative. -/
theorem monthDifference_nonneg (start end_ : Option Int) :
    0 ≤ monthDifference start end_ := by
  rcases start with _ | s <;> rcases end_ with _ | e <;>
    simp only [monthDifference, le_refl]
  exact le_max_right _ 0

/-- C1: for every pair of valid instants with birth strictly before the
wedding, the calculator returns a ready result whose marriedMore instant
mm satisfies mm - wedding = wedding - birth, i.e. mm = birth + 2*span
with span = wedding - birth. -/
theorem c1_married_more_symmetric (b w now : Int) (h : b < w) :
    ∃ mm, resultMarriedMore (explainMarriedMoreDate (some b) (some w) now) = some mm ∧
      mm - w = w - b ∧ mm = b + 2 * (w - b) := by
  refine ⟨w + (w - b), ?_, by ring, by ring⟩
  simp [explainMarriedMoreDate, not_le.2 h, resultMarriedMore]

/-- Witness for C1 at birth = 0, wedding = one day after the epoch. -/
theorem c1_married_more_symmetric_witness :
    (0 : Int) < 86400000 ∧
      ∃ mm, resultMarriedMore (explainMarriedMoreDate (some 0) (some 86400000) 0) = some mm ∧
        mm - 86400000 = 86400000 - 0 ∧ mm = 0 + 2 * (86400000 - 0) :=
  ⟨by decide, c1_married_more_symmetric 0 86400000 0 (by decide)⟩

/-- C2: for every pair of valid instants with wedding ≤ birth (equal
instants included) the calculator returns the ordering error, never a
zero-duration ready result. -/
theorem c2_wedding_not_after_error (b w now : Int) (h : w ≤ b) :
    explainMarriedMoreDate (some b) (some w) now =
      .error "Your wedding must happen after your birthdate. Please adjust the earlier entry." := by
  simp [explainMarriedMoreDate, h]

/-- Witness for C2 at equal instants. -/
theorem c2_wedding_not_after_error_witness :
    (0 : Int) ≤ 0 ∧
      explainMarriedMoreDate (some 0) (some 0) 0 =
        .error "Your wedding must happen after your birthdate. Please adjust the earlier entry." :=
  ⟨by decide, c2_wedding_not_after_error 0 0 0 (by decide)⟩

/-- C3: whenever at least one input is the invalid-instant sentinel the
calculator returns the completeness error; this branch precedes the
ordering check, so the ordering error can never be produced for an
invalid input. -/
theorem c3_invalid_instant_error (b w : Option Int) (now : Int) (h : b = none ∨ w = none) :
    explainMarriedMoreDate b w now =
      .error "Double-check that each calendar entry is complete." := by
  rcases b with _ | b <;> rcases w with _ | w <;>
    simp only [explainMarriedMoreDate]
  rcases h with h | h <;> exact absurd h (by simp)

/-- Witness for C3 with an invalid birth instant. -/
theorem c3_invalid_instant_error_witness :
    ((none : Option Int) = none ∨ (some (5 : Int)) = none) ∧
      explainMarriedMoreDate none (some 5) 0 =
        .error "Double-check that each calendar entry is complete." :=
  ⟨Or.inl rfl, c3_invalid_instant_error none (some 5) 0 (Or.inl rfl)⟩

/-- C4: whenever a required field of the active mode is the empty
string, the overall result is the idle variant carrying that mode's
guidance message, in both modes. -/
theorem c4_empty_fields_idle (mode : Mode) (bd wd ab aw : String)
    (boff woff : Int → Int) (now : Int)
    (h : (mode = .basic ∧ (bd = "" ∨ wd = "")) ∨
      (mode = .advanced ∧ (ab = "" ∨ aw = ""))) :
    computeResult mode bd wd ab aw boff woff now =
      .idle (match mode with
        | .basic => "Enter both dates to reveal your MarriedMore moment."
        | .advanced => "Add the date, time, and timezone for both birth and wedding.") := by
  rcases h with ⟨hm, h⟩ | ⟨hm, h⟩ <;> subst hm <;> simp [computeResult, h]

/-- Witness for C4 in basic mode with an empty birth date. -/
theorem c4_empty_fields_idle_witness :
    ((Mode.basic = Mode.basic ∧ (("" : String) = "" ∨ ("2020-01-01" : String) = "")) ∨
      (Mode.basic = Mode.advanced ∧ (("" : String) = "" ∨ ("" : String) = ""))) ∧
      computeResult Mode.basic "" "2020-01-01" "" "" (fun _ => 0) (fun _ => 0) 0 =
        .idle "Enter both dates to reveal your MarriedMore moment." :=
  ⟨Or.inl ⟨rfl, Or.inl rfl⟩,
    c4_empty_fields_idle Mode.basic "" "2020-01-01" "" "" (fun _ => 0) (fun _ => 0) 0
      (Or.inl ⟨rfl, Or.inl rfl⟩)⟩

/-- C5 counterexample: the source function's only arguments are birth
and wedding; the current time is read internally from the global clock
(modelled by the final clock-state argument), and two calls with
identical birth and wedding but different clock readings return
different results, so the calculator is not a pure function of
caller-supplied inputs as the claim states. -/
theorem c5_counterexample :
    explainMarriedMoreDate (some 0) (some 100) 50 ≠
      explainMarriedMoreDate (some 0) (some 100) 200 := by
  decide

/-- C5 as amended: the calculator reads the current time internally
(Date.now()) instead of taking it as a caller argument; it is
deterministic given birth, wedding and the clock reading, and the
clock reading influences only the weddingFuture flag — status, message,
marriedMore instant and age breakdown are independent of it. -/
theorem c5_clock_only_affects_future (b w : Option Int) (n1 n2 : Int) :
    eraseFuture (explainMarriedMoreDate b w n1) =
      eraseFuture (explainMarriedMoreDate b w n2) := by
  rcases b with _ | b <;> rcases w with _ | w <;>
    simp only [explainMarriedMoreDate, eraseFuture]
  by_cases h : w ≤ b <;> simp [h, eraseFuture]

/-- C6: every ready result has a non-negative year count and a month
count in 0..11; the elapsed-month count is clamped at zero, and the
final month is counted as complete exactly when the anchor (the start
instant advanced by the raw month difference, day of month and time of
day preserved) has been reached or passed. -/
theorem c6_age_breakdown_bounds :
    (∀ (b w now mm : Int) (age : Int × Int) (wf : Bool),
        explainMarriedMoreDate (some b) (some w) now = .ready mm age wf →
          0 ≤ age.1 ∧ 0 ≤ age.2 ∧ age.2 ≤ 11) ∧
    (∀ start end_, 0 ≤ monthDifference start end_) ∧
    (∀ s e : Int,
        (setUTCMonth s (getUTCMonth s + rawMonthDiff s e) ≤ e →
          monthDifference (some s) (some e) = max (rawMonthDiff s e) 0) ∧
        (e < setUTCMonth s (getUTCMonth s + rawMonthDiff s e) →
          monthDifference (some s) (some e) = max (rawMonthDiff s e - 1) 0)) := by
  refine ⟨?_, monthDifference_nonneg, ?_⟩
  · intro b w now mm age wf h
    by_cases hbw : w ≤ b
    · simp [explainMarriedMoreDate, hbw] at h
    · simp only [explainMarriedMoreDate, hbw, if_false] at h
      obtain ⟨-, hage, -⟩ := CalculationResult.ready.inj h
      subst hage
      have htot := monthDifference_nonneg (some b) (some (w + (w - b)))
      refine ⟨Int.fdiv_nonneg htot (by decide), Int.tmod_nonneg 12 htot, ?_⟩
      have := Int.tmod_lt_of_pos (monthDifference (some b) (some (w + (w - b))))
        (b := 12) (by decide)
      omega
  · intro s e
    constructor <;> intro h
    · show max (if e < setUTCMonth s (getUTCMonth s + rawMonthDiff s e) then
          rawMonthDiff s e - 1 else rawMonthDiff s e) 0 = max (rawMonthDiff s e) 0
      rw [if_neg (not_lt.2 h)]
    · show max (if e < setUTCMonth s (getUTCMonth s + rawMonthDiff s e) then
          rawMonthDiff s e - 1 else rawMonthDiff s e) 0 = max (rawMonthDiff s e - 1) 0
      rw [if_pos h]

/-- Witness for C6 at birth = epoch, wedding = one day later. -/
theorem c6_age_breakdown_bounds_witness :
    (explainMarriedMoreDate (some 0) (some 86400000) 0 =
        .ready 172800000 (0, 0) true ∧
      (0 : Int) ≤ 0 ∧ (0 : Int) ≤ 0 ∧ (0 : Int) ≤ 11) ∧
      (0 : Int) ≤ monthDifference (some 0) (some 86400000) ∧
      (setUTCMonth 0 (getUTCMonth 0 + rawMonthDiff 0 86400000) ≤ 86400000 →
        monthDifference (some 0) (some 86400000) = max (rawMonthDiff 0 86400000) 0) :=
  ⟨⟨by decide, c6_age_breakdown_bounds.1 0 86400000 0 172800000 (0, 0) true (by decide)⟩,
    c6_age_breakdown_bounds.2.1 (some 0) (some 86400000),
    (c6_age_breakdown_bounds.2.2 0 86400000).1⟩

/-- C10: the calculator itself never produces the idle variant — every
input pair yields error or ready — and the composed page result is idle
only when the active mode has an empty required field, in which case the
calculator is never invoked. -/
theorem c10_idle_only_from_empty_fields :
    (∀ (b w : Option Int) (now : Int),
        (explainMarriedMoreDate b w now).isIdle = false) ∧
    (∀ (mode : Mode) (bd wd ab aw : String) (boff woff : Int → Int) (now : Int),
        (computeResult mode bd wd ab aw boff woff now).isIdle = true →
          (mode = .basic ∧ (bd = "" ∨ wd = "")) ∨
            (mode = .advanced ∧ (ab = "" ∨ aw = ""))) := by
  refine ⟨explain_not_idle, ?_⟩
  intro mode bd wd ab aw boff woff now h
  cases mode
  · by_cases hc : bd = "" ∨ wd = ""
    · exact Or.inl ⟨rfl, hc⟩
    · rw [computeResult, if_neg hc, explain_not_idle] at h
      exact absurd h (by simp)
  · by_cases hc : ab = "" ∨ aw = ""
    · exact Or.inr ⟨rfl, hc⟩
    · rw [computeResult, if_neg hc, explain_not_idle] at h
      exact absurd h (by simp)

/-- Witness for C10: idle in basic mode forces an empty basic field. -/
theorem c10_idle_only_from_empty_fields_witness :
    (explainMarriedMoreDate (some 0) (some 1) 0).isIdle = false ∧
      ((Mode.basic = Mode.basic ∧ (("" : String) = "" ∨ ("x" : String) = "")) ∨
        (Mode.basic = Mode.advanced ∧ (("" : String) = "" ∨ ("" : String) = ""))) :=
  ⟨c10_idle_only_from_empty_fields.1 (some 0) (some 1) 0,
    c10_idle_only_from_empty_fields.2 Mode.basic "" "x" "" "" (fun _ => 0) (fun _ => 0) 0
      (by decide)⟩

/-- Helper: the lifecycle invariant holds initially. -/
theorem copyInv_init : CopyInv initCopyModel :=
  ⟨Or.inl rfl, by intro i h; simp [initCopyModel] at h⟩

/-- Helper: under the invariant, cancelling the referenced timeout
empties the live set. -/
theorem clearCurrentTimeout_eq_nil (s : CopyModel) (h : CopyInv s) :
    clearCurrentTimeout s = [] := by
  rcases h.1 with hl | ⟨i, hr, hl⟩
  · unfold clearCurrentTimeout
    cases s.copyTimeoutRef <;> simp [hl]
  · simp [clearCurrentTimeout, hr, hl]

/-- Helper: every step of the copy-label lifecycle preserves the
invariant. -/
theorem copyInv_step (s : CopyModel) (e : CopyEvent) (h : CopyInv s) :
    CopyInv (copyStep s e) := by
  cases e with
  | copyClick ready ok =>
      cases ready with
      | false => simpa [copyStep] using h
      | true =>
          have hstep : copyStep s (.copyClick true ok) =
              { copyLabel := if ok then "Copied!" else "Copy failed"
                liveTimers := [(s.nextId, 2000)]
                copyTimeoutRef := some s.nextId
                nextId := s.nextId + 1 } := by
            simp [copyStep, clearCurrentTimeout_eq_nil s h]
          rw [hstep]
          refine ⟨Or.inr ⟨s.nextId, rfl, rfl⟩, ?_⟩
          intro i hi
          simp only [Option.some.injEq] at hi
          subst hi
          show s.nextId < s.nextId + 1
          omega
  | fire i =>
      by_cases hf : s.liveTimers.filter (fun p => p.1 == i) ≠ []
      · rcases h.1 with hl | ⟨j, hr, hl⟩
        · exact absurd (by simp [hl]) hf
        · have hji : j = i := by
            by_contra hji
            exact hf (by simp [hl, hji])
          have hstep : copyStep s (.fire i) =
              { s with copyLabel := "Copy result",
                       liveTimers := s.liveTimers.filter (fun p => p.1 != i) } := by
            simp only [copyStep, if_pos hf]
          rw [hstep]
          exact ⟨Or.inl (by simp [hl, hji]), fun k hk => h.2 k hk⟩
      · have hstep : copyStep s (.fire i) = s := by
          simp only [copyStep, if_neg hf]
        rw [hstep]
        exact h
  | teardown =>
      exact ⟨Or.inl (clearCurrentTimeout_eq_nil s h), fun i hi => h.2 i hi⟩

/-- Helper: the invariant holds in every reachable state. -/
theorem copyInv_run (evs : List CopyEvent) : CopyInv (runCopy evs) := by
  suffices h : ∀ (l : List CopyEvent) (s : CopyModel), CopyInv s → CopyInv (l.foldl copyStep s) from
    h evs initCopyModel copyInv_init
  intro l
  induction l with
  | nil => exact fun s h => h
  | cons e l ih => exact fun s h => ih _ (copyInv_step s e h)

/-- Helper: appending one event steps the final state once. -/
theorem runCopy_append_one (evs : List CopyEvent) (e : CopyEvent) :
    runCopy (evs ++ [e]) = copyStep (runCopy evs) e := by
  simp [runCopy, List.foldl_append]

/-- Helper: two consecutive appended events step the final state twice. -/
theorem runCopy_append_two (evs : List CopyEvent) (a b : CopyEvent) :
    runCopy (evs ++ [a, b]) = copyStep (copyStep (runCopy evs) a) b := by
  simp [runCopy, List.foldl_append]

/-- Helper: joining a single part leaves it unchanged. -/
theorem intercalate_single (a : String) : String.intercalate ", " [a] = a := by
  simp [String.intercalate, String.intercalate.go]

/-- Helper: joining two parts inserts the separator once. -/
theorem intercalate_pair (a b : String) :
    String.intercalate ", " [a, b] = a ++ ", " ++ b := by
  simp [String.intercalate, String.intercalate.go]

/-- C7 counterexample: in the modelled America/New_York zone the
Advanced-mode entry "2021-03-14T03:30" — a wall-clock time in the hours
right after the spring-forward transition, hence adjacent to it — is
normalized with the offset taken at the naive-as-UTC instant (still
EST) instead of at the actual moment (EDT), so re-rendering the
computed instant in the same zone shows 04:30, not the entered
03:30. -/
theorem c7_counterexample :
    parseDateTimeFields "2021-03-14T03:30" = some ⟨2021, 3, 14, 3, 30, 0⟩ ∧
    (parseDateTimeInZone nyOffset2021 "2021-03-14T03:30").map (renderFieldsInZone nyOffset2021) =
      some ⟨2021, 3, 14, 4, 30, 0⟩ ∧
    (some (⟨2021, 3, 14, 4, 30, 0⟩ : WallClock) ≠ some ⟨2021, 3, 14, 3, 30, 0⟩) :=
  ⟨by decide, by decide, by decide⟩

/-- C7 as amended: the zone round trip is exact exactly when the zone's
offset at the naive-as-UTC instant agrees with its offset at the
computed instant — which holds away from daylight-saving transitions,
including the day after a spring-forward — but fails for wall-clock
times in the shadow of a transition, where the render-and-diff
resolution picks the pre-transition offset.  Under that agreement (plus
the calendar round trip of the entered fields and exactness of the
offset computation at the base instant, both of which hold for
well-formed entries), normalizing and re-rendering reproduces the
entered wall-clock fields. -/
theorem c7_zone_round_trip (off : Int → Int) (s : String) (f : WallClock)
    (hparse : parseDateTimeFields s = some f)
    (hoff : getTimeZoneOffsetMillis off (naiveMs f) = off (naiveMs f))
    (hagree : off (naiveMs f - off (naiveMs f)) = off (naiveMs f))
    (hfields : fieldsOfMs (naiveMs f) = f) :
    ∃ t, parseDateTimeInZone off s = some t ∧ renderFieldsInZone off t = f := by
  refine ⟨naiveMs f - off (naiveMs f), ?_, ?_⟩
  · simp [parseDateTimeInZone, hparse, hoff]
  · rw [renderFieldsInZone, hagree, sub_add_cancel, hfields]

/-- Witness for C7 at the spec's post-transition example: the day after
the 2021 spring-forward in the modelled America/New_York zone. -/
theorem c7_zone_round_trip_witness :
    (parseDateTimeFields "2021-03-15T03:30" = some ⟨2021, 3, 15, 3, 30, 0⟩ ∧
      getTimeZoneOffsetMillis nyOffset2021 (naiveMs ⟨2021, 3, 15, 3, 30, 0⟩) =
        nyOffset2021 (naiveMs ⟨2021, 3, 15, 3, 30, 0⟩) ∧
      nyOffset2021 (naiveMs ⟨2021, 3, 15, 3, 30, 0⟩ -
          nyOffset2021 (naiveMs ⟨2021, 3, 15, 3, 30, 0⟩)) =
        nyOffset2021 (naiveMs ⟨2021, 3, 15, 3, 30, 0⟩) ∧
      fieldsOfMs (naiveMs ⟨2021, 3, 15, 3, 30, 0⟩) = ⟨2021, 3, 15, 3, 30, 0⟩) ∧
    ∃ t, parseDateTimeInZone nyOffset2021 "2021-03-15T03:30" = some t ∧
      renderFieldsInZone nyOffset2021 t = ⟨2021, 3, 15, 3, 30, 0⟩ :=
  ⟨⟨by decide, by decide, by decide, by decide⟩,
    c7_zone_round_trip nyOffset2021 "2021-03-15T03:30" ⟨2021, 3, 15, 3, 30, 0⟩
      (by decide) (by decide) (by decide) (by decide)⟩

/-- C8: for every non-negative age breakdown, the rendered phrase
contains the years part exactly when years > 0, contains the months
part exactly when months > 0 or both counts are zero, joins the two
parts with ", " when both are present, and renders "0 months" (never
the empty string) in the all-zero case. -/
theorem c8_age_label_cases (y m : Int) (hy : 0 ≤ y) (hm : 0 ≤ m) :
    ageLabel y m =
      if 0 < y then
        if 0 < m then
          (toString y ++ " year" ++ (if y = 1 then "" else "s")) ++ ", " ++
            (toString m ++ " month" ++ (if m = 1 then "" else "s"))
        else toString y ++ " year" ++ (if y = 1 then "" else "s")
      else toString m ++ " month" ++ (if m = 1 then "" else "s") := by
  by_cases hy1 : y = 0
  · subst hy1
    by_cases hm1 : m = 0
    · subst hm1
      simp [ageLabel, intercalate_single]
    · simp [ageLabel, hm1, intercalate_single]
  · have hy0 : 0 < y := lt_of_le_of_ne hy (Ne.symm hy1)
    by_cases hm1 : m = 0
    · subst hm1
      simp [ageLabel, hy1, hy0, intercalate_single]
    · have hm0 : 0 < m := lt_of_le_of_ne hm (Ne.symm hm1)
      simp [ageLabel, hy1, hm1, hy0, hm0, intercalate_pair]

/-- Witness for C8 at years = 2, months = 5. -/
theorem c8_age_label_cases_witness :
    (0 : Int) ≤ 2 ∧ (0 : Int) ≤ 5 ∧
      ageLabel 2 5 =
        if (0 : Int) < 2 then
          if (0 : Int) < 5 then
            (toString (2 : Int) ++ " year" ++ (if (2 : Int) = 1 then "" else "s")) ++ ", " ++
              (toString (5 : Int) ++ " month" ++ (if (5 : Int) = 1 then "" else "s"))
          else toString (2 : Int) ++ " year" ++ (if (2 : Int) = 1 then "" else "s")
        else toString (5 : Int) ++ " month" ++ (if (5 : Int) = 1 then "" else "s") :=
  ⟨by decide, by decide, c8_age_label_cases 2 5 (by decide) (by decide)⟩

/-- C9: the copy-label lifecycle keeps at most one reversion timeout
live in every reachable state; every scheduled reversion carries the
fixed 2000 ms delay; teardown cancels any pending reversion
unconditionally; after a successful copy the label reads "Copied!" with
exactly one pending reversion whose firing reverts the label to
"Copy result"; and a copy request cancels the previously referenced
timeout before scheduling its own, so a superseded reversion can never
fire. -/
theorem c9_copy_label_lifecycle :
    (∀ evs, (runCopy evs).liveTimers.length ≤ 1) ∧
    (∀ evs p, p ∈ (runCopy evs).liveTimers → p.2 = 2000) ∧
    (∀ evs, (runCopy (evs ++ [CopyEvent.teardown])).liveTimers = []) ∧
    (∀ evs,
      (runCopy (evs ++ [CopyEvent.copyClick true true])).copyLabel = "Copied!" ∧
      ∃ i, (runCopy (evs ++ [CopyEvent.copyClick true true])).copyTimeoutRef = some i ∧
        (runCopy (evs ++ [CopyEvent.copyClick true true])).liveTimers = [(i, 2000)] ∧
        (runCopy (evs ++ [CopyEvent.copyClick true true, CopyEvent.fire i])).copyLabel =
          "Copy result") ∧
    (∀ evs i, (runCopy evs).copyTimeoutRef = some i →
      ((copyStep (runCopy evs) (CopyEvent.copyClick true true)).liveTimers.filter
        (fun p => p.1 == i)) = []) := by
  have hclick : ∀ evs, copyStep (runCopy evs) (CopyEvent.copyClick true true) =
      { copyLabel := "Copied!"
        liveTimers := [((runCopy evs).nextId, 2000)]
        copyTimeoutRef := some (runCopy evs).nextId
        nextId := (runCopy evs).nextId + 1 } := by
    intro evs
    simp [copyStep, clearCurrentTimeout_eq_nil _ (copyInv_run evs)]
  refine ⟨?_, ?_, ?_, ?_, ?_⟩
  · intro evs
    rcases (copyInv_run evs).1 with hl | ⟨i, _, hl⟩ <;> simp [hl]
  · intro evs p hp
    rcases (copyInv_run evs).1 with hl | ⟨i, _, hl⟩ <;> rw [hl] at hp
    · simp at hp
    · simp at hp
      rw [hp]
  · intro evs
    rw [runCopy_append_one]
    exact clearCurrentTimeout_eq_nil _ (copyInv_run evs)
  · intro evs
    refine ⟨?_, (runCopy evs).nextId, ?_, ?_, ?_⟩
    · rw [runCopy_append_one, hclick evs]
    · rw [runCopy_append_one, hclick evs]
    · rw [runCopy_append_one, hclick evs]
    · rw [runCopy_append_two, hclick evs]
      simp [copyStep]
  · intro evs i hi
    have hlt := (copyInv_run evs).2 i hi
    rw [hclick evs]
    simp only [List.filter]
    have : (((runCopy evs).nextId, 2000).1 == i) = false := by
      simp
      omega
    simp [this]

/-- Witness for C9: a first successful copy leaves one live 2000 ms
reversion, and a second copy request cancels it. -/
theorem c9_copy_label_lifecycle_witness :
    (runCopy [CopyEvent.copyClick true true]).liveTimers.length ≤ 1 ∧
    (((0 : Nat), (2000 : Nat)) ∈ (runCopy [CopyEvent.copyClick true true]).liveTimers →
      ((0 : Nat), (2000 : Nat)).2 = 2000) ∧
    (runCopy ([] ++ [CopyEvent.teardown])).liveTimers = [] ∧
    (runCopy [CopyEvent.copyClick true true]).copyTimeoutRef = some 0 ∧
    ((copyStep (runCopy [CopyEvent.copyClick true true]) (CopyEvent.copyClick true true)).liveTimers.filter
      (fun p => p.1 == 0)) = [] :=
  ⟨c9_copy_label_lifecycle.1 [CopyEvent.copyClick true true],
    fun h => c9_copy_label_lifecycle.2.1 [CopyEvent.copyClick true true] (0, 2000) h,
    c9_copy_label_lifecycle.2.2.1 [],
    by decide,
    c9_copy_label_lifecycle.2.2.2.2 [CopyEvent.copyClick true true] 0 (by decide)⟩
